import Mathlib

/-!
Shallow embedding of `spyder/plugins/languageserver/plugin.py`
(class `LanguageServerPlugin`), the LSP client-lifecycle manager.

Modelling choices:
* Python dicts keyed by strings become association lists (`Dict α`);
  `dictSet` replaces the value at the first occurrence of a key or appends
  a new binding at the end, matching Python's insertion-order semantics.
* The external world (pytest detection, the configuration system, port
  selection, the root path) is an `Env` record of inputs.
* Calls on `LSPClient` instances (start, stop, register_file,
  perform_request, send_plugin_configurations) and on the editor/projects
  plugins are observable `Effect`s; each created instance gets a fresh
  numeric identity `cid` so that the trace tells instances apart.
* Python exceptions (AttributeError on a missing attribute, KeyError on a
  missing dict key) are modelled with `Except PyError`; since Python
  mutates `self` in place, every operation returns the state reached at
  the point of the exception together with the effects already performed.
-/

namespace Spyder

/-- A Python dict with string keys, in insertion order. -/
abbrev Dict (α : Type) := List (String × α)

/-- `d[k] = v` on a Python dict: replace the value at `k` if the key is
present, otherwise append the new binding at the end. -/
def dictSet {α : Type} (d : Dict α) (k : String) (v : α) : Dict α :=
  match d with
  | [] => [(k, v)]
  | (k', v') :: rest => if k' = k then (k, v) :: rest else (k', v') :: dictSet rest k v

/-- `d.pop(k)` key removal: drop the first binding of `k`. -/
def dictErase {α : Type} (d : Dict α) (k : String) : Dict α :=
  match d with
  | [] => []
  | (k', v') :: rest => if k' = k then rest else (k', v') :: dictErase rest k

/-- The keys of a dict, in insertion order (`for k in d`). -/
def dictKeys {α : Type} (d : Dict α) : List String :=
  d.map Prod.fst

/-- The status string `LanguageServerPlugin.STOPPED`. -/
def STOPPED : String := "stopped"

/-- The status string `LanguageServerPlugin.RUNNING`. -/
def RUNNING : String := "running"

/-- The keys of a language-server configuration dict that the manager
inspects: `cmd`, `args`, `host`, `port`, `external`, `stdio` and the
forwarded `configurations` payload (kept opaque as a string). -/
structure ServerConfig where
  cmd : String
  args : String
  host : String
  port : Nat
  external : Bool
  stdio : Bool
  configurations : String
deriving DecidableEq, Repr

/-- An `LSPClient` object as created by `start_client`: its constructor
arguments plus a fresh identity `cid` distinguishing instances. -/
structure LSPClient where
  cid : Nat
  server_settings : ServerConfig
  folder : String
  language : String
deriving DecidableEq, Repr

/-- One value of `self.clients[language]`: a dict with exactly the keys
`status`, `config` and `instance`. -/
structure ClientRecord where
  status : String
  config : ServerConfig
  «instance» : Option LSPClient
deriving DecidableEq, Repr

/-- A value stored in a `params` dict. Only the `language` entry is ever
inspected (for truthiness), so strings, `None` and integers suffice. -/
inductive PyVal where
  | vstr (s : String)
  | vnone
  | vint (n : Int)
deriving DecidableEq, Repr

/-- Python truthiness of a `PyVal` (`if language:`). -/
def truthy : PyVal → Bool
  | .vstr s => s ≠ ""
  | .vnone => false
  | .vint n => n ≠ 0

/-- A request `params` dict. -/
abbrev Params := Dict PyVal

/-- Observable calls the manager makes on client instances and on the
editor/projects plugins. -/
inductive Effect where
  | registerClientInstance (cid : Nat)
  | clientStart (cid : Nat)
  | clientStop (cid : Nat)
  | clientRegisterFile (cid : Nat) (filename codeeditor : String)
  | performRequest (cid : Nat) (request : String) (params : Params)
  | sendPluginConfigurations (cid : Nat) (configurations : String)
  | editorStopLspServices (language : String)
  | projectsStopLspServices
deriving DecidableEq, Repr

/-- Python exceptions the embedded code can raise. -/
inductive PyError where
  | attributeError (attr : String)
  | keyError (key : String)
deriving DecidableEq, Repr

/-- The mutable state of `LanguageServerPlugin`: `self.clients`,
`self.register_queue`, plus a counter supplying fresh instance ids. -/
structure PluginState where
  clients : Dict ClientRecord
  register_queue : Dict (List (String × String))
  nextId : Nat
deriving DecidableEq, Repr

/-- The plugin's environment: pytest detection, the configured language
list (`get_languages`), per-language configuration
(`get_language_config`), `select_port` and `get_root_path`. -/
structure Env where
  runningUnderPytest : Bool
  introspection : Bool
  languages : List String
  langConfig : String → ServerConfig
  rootPath : String → String
  selectPort : Nat → Nat

/-- Result of an operation: state reached, effects performed (in order),
and either a return value or the exception raised. -/
abbrev OpResult (α : Type) := PluginState × List Effect × Except PyError α

/-- `__init__`: register a `stopped`, instance-less record and an empty
registration queue for every configured language. -/
def initState (env : Env) : PluginState :=
  { clients := env.languages.foldl
      (fun d language => dictSet d language
        { status := STOPPED, config := env.langConfig language, «instance» := none })
      []
  , register_queue := env.languages.foldl (fun d language => dictSet d language []) []
  , nextId := 0 }

/-- `register_file(language, filename, codeeditor)`. -/
def register_file (s : PluginState) (language filename codeeditor : String) :
    OpResult Unit :=
  match s.clients.lookup language with
  | none => (s, [], .ok ())
  | some r =>
    match r.«instance» with
    | none =>
      match s.register_queue.lookup language with
      | none => (s, [], .error (.keyError language))
      | some q =>
        ({ s with register_queue :=
            dictSet s.register_queue language (q ++ [(filename, codeeditor)]) },
         [], .ok ())
    | some c => (s, [.clientRegisterFile c.cid filename codeeditor], .ok ())

/-- `start_client(language)`. The replay loop is translated exactly as
written: `language_client.register_file(*entry)` looks up `register_file`
on the record dict `self.clients[language]`, which has no such attribute,
so the first queued entry raises `AttributeError` (after the instance has
been created and started and the status set to running). -/
def start_client (env : Env) (s : PluginState) (language : String) :
    OpResult Bool :=
  match s.clients.lookup language with
  | none => (s, [], .ok false)
  | some r =>
    match s.register_queue.lookup language with
    | none => (s, [], .error (.keyError language))
    | some queue =>
      if env.runningUnderPytest ∧ ¬ env.introspection then
        (s, [], .ok false)
      else
        let started : Bool := r.status = RUNNING
        if r.status = STOPPED then
          let config :=
            if r.config.external then r.config
            else { r.config with port := env.selectPort r.config.port }
          let inst : LSPClient :=
            { cid := s.nextId
            , server_settings := config
            , folder := env.rootPath language
            , language := language }
          let r' : ClientRecord :=
            { status := RUNNING, config := config, «instance» := some inst }
          let s' : PluginState :=
            { s with clients := dictSet s.clients language r', nextId := s.nextId + 1 }
          match queue with
          | [] =>
            ({ s' with register_queue := dictSet s'.register_queue language [] },
             [.registerClientInstance inst.cid, .clientStart inst.cid],
             .ok started)
          | _ :: _ =>
            (s', [.registerClientInstance inst.cid, .clientStart inst.cid],
             .error (.attributeError "register_file"))
        else
          (s, [], .ok started)

/-- `close_client(language)`. A running record with `instance = None`
would raise `AttributeError` on `None.stop()`. -/
def close_client (s : PluginState) (language : String) : OpResult Unit :=
  match s.clients.lookup language with
  | none => (s, [], .ok ())
  | some r =>
    if r.status = RUNNING then
      match r.«instance» with
      | none => (s, [], .error (.attributeError "stop"))
      | some c =>
        ({ s with clients := dictSet s.clients language { r with status := STOPPED } },
         [.clientStop c.cid], .ok ())
    else
      ({ s with clients := dictSet s.clients language { r with status := STOPPED } },
       [], .ok ())

/-- Run a per-language step over a list of languages, accumulating
effects and stopping at the first exception (a Python `for` loop). -/
def runAll (f : PluginState → String → OpResult Unit) :
    List String → PluginState → List Effect → OpResult Unit
  | [], s, acc => (s, acc, .ok ())
  | language :: rest, s, acc =>
    match f s language with
    | (s', es, .error e) => (s', acc ++ es, .error e)
    | (s', es, .ok _) => runAll f rest s' (acc ++ es)

/-- `shutdown()`: close every client, iterating the keys of `clients`. -/
def shutdown (s : PluginState) : OpResult Unit :=
  runAll (fun s' language => close_client s' language) (dictKeys s.clients) s []

/-- `update_client_status(active_set)`: close the clients of languages
not in the active set. -/
def update_client_status (s : PluginState) (active_set : List String) : OpResult Unit :=
  runAll
    (fun s' language =>
      if language ∈ active_set then (s', [], .ok ()) else close_client s' language)
    (dictKeys s.clients) s []

/-- `send_request(language, request, params)`. -/
def send_request (s : PluginState) (language request : String) (params : Params) :
    OpResult Unit :=
  match s.clients.lookup language with
  | none => (s, [], .ok ())
  | some r =>
    if r.status = RUNNING then
      match r.«instance» with
      | none => (s, [], .error (.attributeError "perform_request"))
      | some c => (s, [.performRequest c.cid request params], .ok ())
    else
      (s, [], .ok ())

/-- `broadcast_request(request, params)`: pop `language` from `params`;
a truthy value selects one language, anything else broadcasts to all.
A truthy non-string value is never a key of the string-keyed `clients`
dict, so `send_request` ignores it. -/
def broadcast_request (s : PluginState) (request : String) (params : Params) :
    OpResult Unit :=
  let popped := params.lookup "language"
  let params' := dictErase params "language"
  match popped with
  | some v =>
    if truthy v then
      match v with
      | .vstr language => send_request s language request params'
      | _ => (s, [], .ok ())
    else
      runAll (fun s' language => send_request s' language request params')
        (dictKeys s.clients) s []
  | none =>
    runAll (fun s' language => send_request s' language request params')
      (dictKeys s.clients) s []

/-- The configuration keys whose change forces a restart
(`restart_diff` in `update_server_list`) all agree. -/
abbrev sameCoreConfig (a b : ServerConfig) : Prop :=
  a.cmd = b.cmd ∧ a.args = b.args ∧ a.host = b.host ∧ a.port = b.port ∧
    a.external = b.external ∧ a.stdio = b.stdio

/-- The record each `update_server_list` iteration builds first:
`{'status': STOPPED, 'config': get_language_config(language),
'instance': None}`. -/
def freshRecord (env : Env) (language : String) : ClientRecord :=
  { status := STOPPED, config := env.langConfig language, «instance» := none }

/-- One iteration of the `update_server_list` loop for one language. -/
def update_one (env : Env) (s : PluginState) (language : String) : OpResult Unit :=
  let newRecord : ClientRecord := freshRecord env language
  match s.clients.lookup language with
  | none =>
    ({ s with clients := dictSet s.clients language newRecord
            , register_queue := dictSet s.register_queue language [] },
     [], .ok ())
  | some r =>
    if sameCoreConfig r.config newRecord.config then
      if r.status = RUNNING then
        match r.«instance» with
        | none => (s, [], .error (.attributeError "send_plugin_configurations"))
        | some c =>
          (s, [.sendPluginConfigurations c.cid newRecord.config.configurations], .ok ())
      else
        (s, [], .ok ())
    else
      if r.status = STOPPED then
        ({ s with clients := dictSet s.clients language newRecord }, [], .ok ())
      else if r.status = RUNNING then
        let pre : List Effect := [.editorStopLspServices language, .projectsStopLspServices]
        match close_client s language with
        | (s1, es1, .error e) => (s1, pre ++ es1, .error e)
        | (s1, es1, .ok _) =>
          let s2 : PluginState := { s1 with clients := dictSet s1.clients language newRecord }
          let res3 := start_client env s2 language
          (res3.1, pre ++ es1 ++ res3.2.1, res3.2.2.map (fun _ => ()))
      else
        (s, [], .ok ())

/-- `update_server_list()`: run `update_one` over `get_languages()`. -/
def update_server_list (env : Env) (s : PluginState) : OpResult Unit :=
  runAll (update_one env) env.languages s []

/-! ### State predicates -/

/-- Every running record carries a live client instance. This holds in
every reachable state: the only assignment of `RUNNING` (in
`start_client`) happens after `language_client['instance']` is set, and
every other write of a record stores status `stopped`. -/
abbrev RunningHasInstance (s : PluginState) : Prop :=
  ∀ p ∈ s.clients, p.2.status = RUNNING → p.2.«instance».isSome

/-! ### Claim statements -/

/-- Statement of claim C2: with the record's instance still `None`,
`register_file` appends the pair to the language's queue (touching
nothing else); with a live instance it forwards the registration to it
and leaves the whole state unchanged. -/
def RegisterFileClaim (s : PluginState) (language filename codeeditor : String)
    (r : ClientRecord) (q : List (String × String)) : Prop :=
  (r.«instance» = none →
    register_file s language filename codeeditor =
      ({ s with register_queue :=
          dictSet s.register_queue language (q ++ [(filename, codeeditor)]) },
       [], .ok ())) ∧
  (∀ c, r.«instance» = some c →
    register_file s language filename codeeditor =
      (s, [.clientRegisterFile c.cid filename codeeditor], .ok ()))

/-- Statement of claim C5: `send_request` never changes the state and
forwards the request via `perform_request` exactly when the language is
registered with status running. -/
def SendRequestClaim (s : PluginState) (language request : String)
    (params : Params) : Prop :=
  (send_request s language request params).1 = s ∧
  (match s.clients.lookup language with
   | some r =>
     if r.status = RUNNING then
       ∃ c, r.«instance» = some c ∧
         (send_request s language request params).2 =
           ([.performRequest c.cid request params], .ok ())
     else (send_request s language request params).2 = ([], .ok ())
   | none => (send_request s language request params).2 = ([], .ok ()))

/-- The configuration `start_client` actually hands to the new client:
for a non-external server the port is replaced by `select_port`. -/
def appliedConfig (env : Env) (cfg : ServerConfig) : ServerConfig :=
  if cfg.external then cfg else { cfg with port := env.selectPort cfg.port }

/-- The `LSPClient` object `start_client` constructs. -/
def newClient (env : Env) (cfg : ServerConfig) (n : Nat) (language : String) :
    LSPClient :=
  { cid := n, server_settings := cfg, folder := env.rootPath language
  , language := language }

/-- The registry record right after `start_client` has started a client. -/
def startedRecord (env : Env) (cfg : ServerConfig) (n : Nat) (language : String) :
    ClientRecord :=
  { status := RUNNING, config := cfg, «instance» := some (newClient env cfg n language) }

/-- Reachable-state facts C4 needs: every running record has a live
instance and an empty registration queue (the only successful path to
status `running` is `start_client`, which sets the instance and resets
the queue). -/
abbrev ReadyState (s : PluginState) : Prop :=
  ∀ p ∈ s.clients, p.2.status = RUNNING →
    p.2.«instance».isSome ∧ s.register_queue.lookup p.1 = some []

/-- Statement of amended claim C4, per configured language: a language
absent from `clients` gets a fresh stopped entry and an empty queue; a
running language whose configuration changed in a restart-relevant key
is stopped (a `stop` call on its old instance) and restarted (a new
instance carrying the freshly generated configuration, with the port
applied); a running language whose configuration did not change keeps
its record and receives `send_plugin_configurations` with the new
`configurations` payload. -/
def UpdateServerListClaim (env : Env) (s : PluginState) : Prop :=
  (update_server_list env s).2.2 = .ok () ∧
  ∀ language, language ∈ env.languages →
    ((s.clients.lookup language = none →
       (update_server_list env s).1.clients.lookup language =
         some (freshRecord env language) ∧
       (update_server_list env s).1.register_queue.lookup language = some []) ∧
     (∀ r, s.clients.lookup language = some r → r.status = RUNNING →
       ((¬ sameCoreConfig r.config (freshRecord env language).config →
          ∃ c n, r.«instance» = some c ∧
            Effect.clientStop c.cid ∈ (update_server_list env s).2.1 ∧
            Effect.clientStart n ∈ (update_server_list env s).2.1 ∧
            (update_server_list env s).1.clients.lookup language =
              some (startedRecord env
                (appliedConfig env (env.langConfig language)) n language)) ∧
        (sameCoreConfig r.config (freshRecord env language).config →
          (update_server_list env s).1.clients.lookup language = some r ∧
          ∃ c, r.«instance» = some c ∧
            Effect.sendPluginConfigurations c.cid
              (env.langConfig language).configurations ∈
                (update_server_list env s).2.1))))

/-- The client call `send_request` makes for a registry entry: a
`perform_request` on the instance when the entry is running, nothing
otherwise. -/
def sendEffect (request : String) (params' : Params) (_l : String)
    (o : Option ClientRecord) : List Effect :=
  match o with
  | some r =>
    if r.status = RUNNING then
      match r.«instance» with
      | some c => [Effect.performRequest c.cid request params']
      | none => []
    else []
  | none => []

/-- Statement of claim C6: `broadcast_request` pops `language` from
`params`; a present truthy string routes the request (with the remaining
params) to exactly that language via `send_request`, while an absent or
falsy value broadcasts it: the state is unchanged, nothing is raised,
and every running client receives `perform_request`. -/
def BroadcastClaim (s : PluginState) (request : String) (params : Params) : Prop :=
  (∀ l, params.lookup "language" = some (PyVal.vstr l) → l ≠ "" →
    broadcast_request s request params =
      send_request s l request (dictErase params "language")) ∧
  ((params.lookup "language" = none ∨
    (∃ v, params.lookup "language" = some v ∧ truthy v = false)) →
    (broadcast_request s request params).1 = s ∧
    (broadcast_request s request params).2.2 = .ok () ∧
    (∀ l r c, s.clients.lookup l = some r → r.status = RUNNING →
      r.«instance» = some c →
      Effect.performRequest c.cid request (dictErase params "language") ∈
        (broadcast_request s request params).2.1))

/-- The client call `close_client` makes for a registry entry: a `stop`
on the instance when the entry is running, nothing otherwise. -/
def stopEffect (_l : String) (o : Option ClientRecord) : List Effect :=
  match o with
  | some r =>
    if r.status = RUNNING then
      match r.«instance» with
      | some c => [Effect.clientStop c.cid]
      | none => []
    else []
  | none => []

/-- Statement of claim C7: `shutdown` closes every client (emitting a
stop call for every running one) and leaves every registry entry
stopped; `update_client_status(active_set)` leaves every language
outside the active set stopped. -/
def ShutdownClaim (s : PluginState) (active_set : List String) : Prop :=
  ((shutdown s).2.2 = .ok () ∧
   (∀ l r c, s.clients.lookup l = some r → r.status = RUNNING →
      r.«instance» = some c → Effect.clientStop c.cid ∈ (shutdown s).2.1) ∧
   (∀ l r, (shutdown s).1.clients.lookup l = some r → r.status = STOPPED)) ∧
  ((update_client_status s active_set).2.2 = .ok () ∧
   (∀ l r, l ∉ active_set →
      (update_client_status s active_set).1.clients.lookup l = some r →
      r.status = STOPPED))

/-- Statement of claim C9: `close_client` raises nothing, sets exactly the
entry's status to stopped (keeping its config and instance), leaves every
other entry, the queues and the id counter unchanged, and a second call
is the identity. -/
def CloseClientClaim (s : PluginState) (language : String) (r : ClientRecord) : Prop :=
  (close_client s language).2.2 = .ok () ∧
  (close_client s language).1.clients.lookup language =
    some { r with status := STOPPED } ∧
  (∀ l, l ≠ language →
    (close_client s language).1.clients.lookup l = s.clients.lookup l) ∧
  (close_client s language).1.register_queue = s.register_queue ∧
  (close_client s language).1.nextId = s.nextId ∧
  close_client (close_client s language).1 language =
    ((close_client s language).1, [], .ok ())

/-- Statement of claim C10: on a language that is not a key of `clients`,
the four public operations raise nothing, perform no client call, leave
the state unchanged, and `start_client` returns `False`. -/
def UnknownLanguageClaim (env : Env) (s : PluginState)
    (language filename codeeditor request : String) (params : Params) : Prop :=
  register_file s language filename codeeditor = (s, [], .ok ()) ∧
  send_request s language request params = (s, [], .ok ()) ∧
  close_client s language = (s, [], .ok ()) ∧
  start_client env s language = (s, [], .ok false)

/-- Every language registered in `clients` also has a queue in
`register_queue` (established by `__init__` and preserved by every
operation). -/
abbrev QueueCovers (s : PluginState) : Prop :=
  ∀ p ∈ s.clients, (s.register_queue.lookup p.1).isSome

/-- Statement of claim C3's invariant: `clients` binds each language to
exactly one record (no duplicate keys), every status is `stopped` or
`running`, and every key of `clients` is also a key of
`register_queue`. (That each record has exactly the fields `status`,
`config` and `instance` is the record type `ClientRecord` itself, which
is how every write in the source builds its values.) -/
abbrev RegistryInv (s : PluginState) : Prop :=
  (dictKeys s.clients).Nodup ∧
  (∀ p ∈ s.clients, p.2.status = STOPPED ∨ p.2.status = RUNNING) ∧
  (∀ p ∈ s.clients, (s.register_queue.lookup p.1).isSome)

/-- Statement of amended claim C8: `start_client` returns `True` exactly
when the language is a key of `clients`, the pytest gate does not apply,
and the status was already running; and, provided the language's
registration queue is empty, it returns `False` in the case where it
creates and starts a new client. -/
def StartClientReturnClaim (env : Env) (s : PluginState) (language : String) : Prop :=
  ((start_client env s language).2.2 = .ok true ↔
    (¬(env.runningUnderPytest ∧ ¬env.introspection) ∧
     ∃ r, s.clients.lookup language = some r ∧ r.status = RUNNING)) ∧
  (∀ r, s.clients.lookup language = some r → r.status = STOPPED →
    s.register_queue.lookup language = some [] →
    ¬(env.runningUnderPytest ∧ ¬env.introspection) →
    (start_client env s language).2.2 = .ok false)

/-! ### Fixtures -/

/-- A sample `python` server configuration. -/
def sampleConfig : ServerConfig :=
  { cmd := "pyls", args := "--host 127.0.0.1 --port 2087 --tcp", host := "127.0.0.1"
  , port := 2087, external := false, stdio := false, configurations := "pyls-plugins" }

/-- A sample environment: one configured language, not under pytest. -/
def envA : Env :=
  { runningUnderPytest := false, introspection := false, languages := ["python"]
  , langConfig := fun _ => sampleConfig, rootPath := fun _ => "lsp_root_path"
  , selectPort := fun p => p }

/-- The state right after `__init__` under `envA`. -/
def stateA : PluginState := initState envA

/-- The client instance `start_client envA stateA "python"` creates. -/
def runClient : LSPClient :=
  { cid := 0, server_settings := sampleConfig, folder := "lsp_root_path"
  , language := "python" }

/-- A running record for `python`. -/
def recRun : ClientRecord :=
  { status := RUNNING, config := sampleConfig, «instance» := some runClient }

/-- The state after `start_client envA stateA "python"`. -/
def stateRun : PluginState :=
  { clients := [("python", recRun)], register_queue := [("python", [])], nextId := 1 }

/-- `stateA` after `register_file stateA "python" "t.py" "ed"`: the
client is not started yet and one registration is queued. -/
def stateQ : PluginState := (register_file stateA "python" "t.py" "ed").1

/-- An environment running under pytest without introspection, whose
fresh configuration differs from `sampleConfig` in the port. -/
def envGate : Env :=
  { runningUnderPytest := true, introspection := false, languages := ["python"]
  , langConfig := fun _ => { sampleConfig with port := 3000 }
  , rootPath := fun _ => "lsp_root_path", selectPort := fun p => p }

/-! ### Dictionary lemmas -/

theorem lookup_dictSet_self {α : Type} (d : Dict α) (k : String) (v : α) :
    (dictSet d k v).lookup k = some v := by
  induction d with
  | nil => simp [dictSet, List.lookup]
  | cons p rest ih =>
    obtain ⟨k', v'⟩ := p
    by_cases h : k' = k
    · subst h
      simp [dictSet, List.lookup]
    · simp [dictSet, h, List.lookup, beq_false_of_ne (Ne.symm h), ih]

theorem lookup_dictSet_ne {α : Type} (d : Dict α) (k k' : String) (v : α)
    (h : k' ≠ k) : (dictSet d k v).lookup k' = d.lookup k' := by
  induction d with
  | nil => simp [dictSet, List.lookup, beq_false_of_ne h]
  | cons p rest ih =>
    obtain ⟨k₀, v₀⟩ := p
    by_cases h₀ : k₀ = k
    · subst h₀
      simp [dictSet, List.lookup, beq_false_of_ne h]
    · simp only [dictSet, if_neg h₀, List.lookup]
      cases hb : k' == k₀ <;> simp [ih]

theorem dictSet_lookup_eq_self {α : Type} (d : Dict α) (k : String) (v : α)
    (h : d.lookup k = some v) : dictSet d k v = d := by
  induction d with
  | nil => simp [List.lookup] at h
  | cons p rest ih =>
    obtain ⟨k₀, v₀⟩ := p
    by_cases h₀ : k₀ = k
    · subst h₀
      simp [List.lookup] at h
      simp [dictSet, h]
    · simp [List.lookup, beq_false_of_ne (Ne.symm h₀)] at h
      simp [dictSet, h₀, ih h]

theorem lookup_isSome_iff_mem_keys {α : Type} (d : Dict α) (k : String) :
    (d.lookup k).isSome ↔ k ∈ dictKeys d := by
  induction d with
  | nil => simp [dictKeys, List.lookup]
  | cons p rest ih =>
    obtain ⟨k₀, v₀⟩ := p
    by_cases h₀ : k = k₀
    · subst h₀
      simp [dictKeys, List.lookup]
    · simp [dictKeys, List.lookup, beq_false_of_ne h₀, h₀, ih]

theorem dictKeys_dictSet_of_mem {α : Type} (d : Dict α) (k : String) (v : α)
    (h : k ∈ dictKeys d) : dictKeys (dictSet d k v) = dictKeys d := by
  induction d with
  | nil => simp [dictKeys] at h
  | cons p rest ih =>
    obtain ⟨k₀, v₀⟩ := p
    by_cases h₀ : k₀ = k
    · subst h₀
      simp [dictSet, dictKeys]
    · simp only [dictKeys, List.map_cons, List.mem_cons] at h
      have hm : k ∈ dictKeys rest := by
        rcases h with h1 | h1
        · exact absurd h1.symm h₀
        · exact h1
      simp only [dictSet, if_neg h₀, dictKeys, List.map_cons]
      exact congrArg (k₀ :: ·) (ih hm)

theorem dictKeys_dictSet_of_not_mem {α : Type} (d : Dict α) (k : String) (v : α)
    (h : k ∉ dictKeys d) : dictKeys (dictSet d k v) = dictKeys d ++ [k] := by
  induction d with
  | nil => simp [dictSet, dictKeys]
  | cons p rest ih =>
    obtain ⟨k₀, v₀⟩ := p
    simp only [dictKeys, List.map_cons, List.mem_cons, not_or] at h
    obtain ⟨h1, h2⟩ := h
    simp only [dictSet, if_neg (Ne.symm h1), dictKeys, List.map_cons, List.cons_append]
    exact congrArg (k₀ :: ·) (ih h2)

theorem nodup_dictKeys_dictSet {α : Type} (d : Dict α) (k : String) (v : α)
    (h : (dictKeys d).Nodup) : (dictKeys (dictSet d k v)).Nodup := by
  by_cases hm : k ∈ dictKeys d
  · rw [dictKeys_dictSet_of_mem d k v hm]
    exact h
  · rw [dictKeys_dictSet_of_not_mem d k v hm]
    simpa [List.nodup_append] using ⟨h, hm⟩

theorem mem_of_lookup_eq_some {α : Type} {d : Dict α} {k : String} {v : α}
    (h : d.lookup k = some v) : (k, v) ∈ d := by
  induction d with
  | nil => simp [List.lookup] at h
  | cons p rest ih =>
    obtain ⟨k₀, v₀⟩ := p
    by_cases h₀ : k = k₀
    · subst h₀
      simp [List.lookup] at h
      simp [h]
    · simp [List.lookup, beq_false_of_ne h₀] at h
      exact List.mem_cons_of_mem _ (ih h)

/-! ### Basic facts -/

theorem stopped_ne_running : STOPPED ≠ RUNNING := by decide

theorem running_ne_stopped : RUNNING ≠ STOPPED := by decide

theorem runningHasInstance_lookup {s : PluginState} (h : RunningHasInstance s)
    {l : String} {r : ClientRecord} (hc : s.clients.lookup l = some r)
    (hr : r.status = RUNNING) : r.«instance».isSome :=
  h (l, r) (mem_of_lookup_eq_some hc) hr

theorem stateRun_eq_start_client :
    start_client envA stateA "python" =
      (stateRun, [.registerClientInstance 0, .clientStart 0], .ok false) := by
  rfl

/-! ### Claim C2 -/

/-- C2: for every language that is a key of `clients`, `register_file`
appends `(filename, codeeditor)` to `register_queue[language]` when the
entry's instance is `None`, and otherwise forwards the registration to
the instance's `register_file`, leaving the queue unchanged. -/
theorem register_file_queues_or_forwards (s : PluginState)
    (language filename codeeditor : String) (r : ClientRecord)
    (q : List (String × String))
    (hc : s.clients.lookup language = some r)
    (hq : s.register_queue.lookup language = some q) :
    RegisterFileClaim s language filename codeeditor r q := by
  unfold RegisterFileClaim
  constructor
  · intro hnone
    simp [register_file, hc, hq, hnone]
  · intro c hsome
    simp [register_file, hc, hsome]

/-- Witness for C2 at the freshly initialised single-language state. -/
theorem register_file_queues_or_forwards_witness :
    stateA.clients.lookup "python" =
      some { status := STOPPED, config := sampleConfig, «instance» := none } ∧
    stateA.register_queue.lookup "python" = some [] ∧
    RegisterFileClaim stateA "python" "t.py" "ed"
      { status := STOPPED, config := sampleConfig, «instance» := none } [] :=
  ⟨rfl, rfl,
   register_file_queues_or_forwards stateA "python" "t.py" "ed"
     { status := STOPPED, config := sampleConfig, «instance» := none } [] rfl rfl⟩

/-! ### Claim C5 -/

/-- C5: `send_request(language, request, params)` forwards
`(request, params)` to the language's instance via `perform_request`
exactly when `language` is a key of `clients` with status running, and
in every case leaves the manager's state unchanged. -/
theorem send_request_forwards_iff_running (s : PluginState)
    (language request : String) (params : Params)
    (hWF : RunningHasInstance s) :
    SendRequestClaim s language request params := by
  unfold SendRequestClaim
  cases hc : s.clients.lookup language with
  | none => simp [send_request, hc]
  | some r =>
    by_cases hr : r.status = RUNNING
    · have hi := runningHasInstance_lookup hWF hc hr
      cases hinst : r.«instance» with
      | none => simp [hinst] at hi
      | some c => simp [send_request, hc, hr, hinst]
    · simp [send_request, hc, hr]

/-- Witness for C5 at a state with a running python client. -/
theorem send_request_forwards_iff_running_witness :
    RunningHasInstance stateRun ∧
    SendRequestClaim stateRun "python" "textDocument/didOpen" [] :=
  ⟨by decide,
   send_request_forwards_iff_running stateRun "python" "textDocument/didOpen" []
     (by decide)⟩

/-! ### Claim C9 -/

/-- C9: for a registered language, `close_client` only sets that entry's
status to `stopped`; config, instance, every other entry, the queues and
the id counter are untouched, and a second `close_client` on the same
language leaves the state identical. -/
theorem close_client_frame_idempotent (s : PluginState) (language : String)
    (r : ClientRecord) (hc : s.clients.lookup language = some r)
    (hWF : r.status = RUNNING → r.«instance».isSome) :
    CloseClientClaim s language r := by
  unfold CloseClientClaim
  obtain ⟨st, cfg, inst⟩ := r
  by_cases hr : st = RUNNING
  · obtain ⟨c, hinst⟩ := Option.isSome_iff_exists.mp (hWF hr)
    subst hinst
    have hout : close_client s language =
        ({ s with clients :=
            dictSet s.clients language ⟨STOPPED, cfg, some c⟩ },
         [.clientStop c.cid], .ok ()) := by
      simp [close_client, hc, hr]
    rw [hout]
    have hlook : (dictSet s.clients language
        (⟨STOPPED, cfg, some c⟩ : ClientRecord)).lookup language =
        some ⟨STOPPED, cfg, some c⟩ := lookup_dictSet_self ..
    refine ⟨rfl, hlook, fun l hl => lookup_dictSet_ne _ _ _ _ hl, rfl, rfl, ?_⟩
    simp [close_client, hlook, stopped_ne_running,
      dictSet_lookup_eq_self _ _ _ hlook]
  · have hout : close_client s language =
        ({ s with clients :=
            dictSet s.clients language ⟨STOPPED, cfg, inst⟩ },
         [], .ok ()) := by
      simp [close_client, hc, hr]
    rw [hout]
    have hlook : (dictSet s.clients language
        (⟨STOPPED, cfg, inst⟩ : ClientRecord)).lookup language =
        some ⟨STOPPED, cfg, inst⟩ := lookup_dictSet_self ..
    refine ⟨rfl, hlook, fun l hl => lookup_dictSet_ne _ _ _ _ hl, rfl, rfl, ?_⟩
    simp [close_client, hlook, stopped_ne_running,
      dictSet_lookup_eq_self _ _ _ hlook]

/-- Witness for C9, closing the running python client. -/
theorem close_client_frame_idempotent_witness :
    stateRun.clients.lookup "python" = some recRun ∧
    (recRun.status = RUNNING → recRun.«instance».isSome) ∧
    CloseClientClaim stateRun "python" recRun :=
  ⟨rfl, fun _ => rfl,
   close_client_frame_idempotent stateRun "python" recRun rfl (fun _ => rfl)⟩

/-! ### Claim C10 -/

/-- C10: for every language that is not a key of `clients`, the public
operations `register_file`, `send_request`, `close_client` and
`start_client` complete without raising, leave `clients` and
`register_queue` unchanged, and `start_client` returns `False`. -/
theorem unknown_language_ops_noop (env : Env) (s : PluginState)
    (language filename codeeditor request : String) (params : Params)
    (h : s.clients.lookup language = none) :
    UnknownLanguageClaim env s language filename codeeditor request params := by
  unfold UnknownLanguageClaim
  refine ⟨?_, ?_, ?_, ?_⟩ <;>
    simp [register_file, send_request, close_client, start_client, h]

/-- Witness for C10 at a language absent from the registry. -/
theorem unknown_language_ops_noop_witness :
    stateA.clients.lookup "julia" = none ∧
    UnknownLanguageClaim envA stateA "julia" "ed" "a.jl" "initialize" [] :=
  ⟨rfl, unknown_language_ops_noop envA stateA "julia" "ed" "a.jl" "initialize" [] rfl⟩

theorem queueCovers_lookup {s : PluginState} (h : QueueCovers s)
    {l : String} {r : ClientRecord} (hc : s.clients.lookup l = some r) :
    (s.register_queue.lookup l).isSome :=
  h (l, r) (mem_of_lookup_eq_some hc)

/-! ### Claim C1 -/

/-- C1: evaluation at the failing input. At the reachable state with one
queued registration for the stopped language `python` (not under
pytest), `start_client` creates the new instance, starts it and sets the
status to running, but the replay loop executes
`language_client.register_file(*entry)` on the registry record
`self.clients[language]` — a dict with no `register_file` attribute — so
it raises `AttributeError`: the queued pair is never registered with the
new client and `register_queue['python']` is not reset to `[]`. -/
theorem start_client_replay_raises_attribute_error :
    start_client envA stateQ "python" =
      ({ clients := [("python", recRun)]
       , register_queue := [("python", [("t.py", "ed")])]
       , nextId := 1 },
       [.registerClientInstance 0, .clientStart 0],
       .error (.attributeError "register_file")) := by
  rfl

/-! ### Claim C8 -/

/-- C8 counterexample: at the state with one queued registration,
`start_client` does create and start a new client (the first two trace
events) yet does not return `False` — it raises `AttributeError`. -/
theorem start_client_return_counterexample :
    (start_client envA stateQ "python").2.1 =
      [.registerClientInstance 0, .clientStart 0] ∧
    (start_client envA stateQ "python").2.2 =
      .error (.attributeError "register_file") ∧
    ¬(start_client envA stateQ "python").2.2 = .ok false := by
  refine ⟨rfl, rfl, ?_⟩
  rw [show (start_client envA stateQ "python").2.2 =
      Except.error (.attributeError "register_file") from rfl]
  simp

/-- C8 (amended): `start_client` returns `True` iff the language is
registered, the pytest gate does not apply and the status was already
running; and it returns `False` when it creates and starts a new client,
provided that language's registration queue is empty. -/
theorem start_client_returns_was_running (env : Env) (s : PluginState)
    (language : String) (hq : QueueCovers s) :
    StartClientReturnClaim env s language := by
  unfold StartClientReturnClaim
  refine ⟨?_, ?_⟩
  · cases hc : s.clients.lookup language with
    | none => simp [start_client, hc]
    | some r =>
      obtain ⟨q, hqs⟩ := Option.isSome_iff_exists.mp (queueCovers_lookup hq hc)
      cases hpt : env.runningUnderPytest <;> cases hin : env.introspection <;>
        [skip; skip; skip; skip] <;>
        (by_cases hr : r.status = RUNNING
         · simp [start_client, hc, hqs, hpt, hin, hr, running_ne_stopped]
         · by_cases hst : r.status = STOPPED
           · cases q with
             | nil =>
               simp [start_client, hc, hqs, hpt, hin, hr, hst, stopped_ne_running]
             | cons e rest =>
               simp [start_client, hc, hqs, hpt, hin, hr, hst, stopped_ne_running]
           · simp [start_client, hc, hqs, hpt, hin, hr, hst])
  · intro r hr hst hqe hng
    have hnr : ¬ r.status = RUNNING := by
      rw [hst]
      exact stopped_ne_running
    cases hpt : env.runningUnderPytest <;> cases hin : env.introspection <;>
      simp [hpt, hin] at hng ⊢ <;>
      simp [start_client, hr, hqe, hst, hnr, hpt, hin, stopped_ne_running]

/-- Witness for the amended C8 at the freshly initialised state. -/
theorem start_client_returns_was_running_witness :
    QueueCovers stateA ∧ StartClientReturnClaim envA stateA "python" :=
  ⟨by decide, start_client_returns_was_running envA stateA "python" (by decide)⟩


/-! ### Invariant preservation (claim C3) -/

theorem forall_mem_dictSet {α : Type} {P : String × α → Prop} {d : Dict α}
    {k : String} {v : α} (hd : ∀ p ∈ d, P p) (hv : P (k, v)) :
    ∀ p ∈ dictSet d k v, P p := by
  revert hd
  induction d with
  | nil =>
    intro hd p hp
    simp only [dictSet, List.mem_singleton] at hp
    subst hp
    exact hv
  | cons q rest ih =>
    obtain ⟨k₀, v₀⟩ := q
    intro hd p hp
    by_cases h₀ : k₀ = k
    · subst h₀
      simp only [dictSet, eq_self_iff_true, if_true, List.mem_cons] at hp
      rcases hp with hp | hp
      · subst hp
        exact hv
      · exact hd p (List.mem_cons_of_mem _ hp)
    · simp only [dictSet, if_neg h₀, List.mem_cons] at hp
      rcases hp with hp | hp
      · subst hp
        exact hd _ (List.mem_cons_self _ _)
      · exact ih (fun q hq => hd q (List.mem_cons_of_mem _ hq)) p hp

theorem lookup_dictSet_isSome {α : Type} (d : Dict α) (k l : String) (v : α) :
    ((dictSet d k v).lookup l).isSome ↔ l = k ∨ (d.lookup l).isSome := by
  by_cases h : l = k
  · subst h
    simp [lookup_dictSet_self]
  · simp [lookup_dictSet_ne _ _ _ _ h, h]

theorem lookup_foldl_dictSet_isSome {α : Type} (v : String → α) (ls : List String) :
    ∀ (d : Dict α) (l : String),
      ((ls.foldl (fun d' k => dictSet d' k (v k)) d).lookup l).isSome ↔
        l ∈ ls ∨ (d.lookup l).isSome := by
  induction ls with
  | nil =>
    intro d l
    simp
  | cons k rest ih =>
    intro d l
    simp only [List.foldl_cons, ih, lookup_dictSet_isSome, List.mem_cons]
    tauto

theorem nodup_dictKeys_foldl_dictSet {α : Type} (v : String → α) (ls : List String) :
    ∀ (d : Dict α), (dictKeys d).Nodup →
      (dictKeys (ls.foldl (fun d' k => dictSet d' k (v k)) d)).Nodup := by
  induction ls with
  | nil =>
    intro d hd
    exact hd
  | cons k rest ih =>
    intro d hd
    exact ih _ (nodup_dictKeys_dictSet _ _ _ hd)

theorem forall_mem_foldl_dictSet {α : Type} (v : String → α) (ls : List String)
    {P : String × α → Prop} (hv : ∀ k, P (k, v k)) :
    ∀ (d : Dict α), (∀ p ∈ d, P p) →
      ∀ p ∈ ls.foldl (fun d' k => dictSet d' k (v k)) d, P p := by
  induction ls with
  | nil =>
    intro d hd
    exact hd
  | cons k rest ih =>
    intro d hd
    exact ih _ (forall_mem_dictSet hd (hv k))

theorem inv_initState (env : Env) : RegistryInv (initState env) := by
  refine ⟨?_, ?_, ?_⟩
  · exact nodup_dictKeys_foldl_dictSet _ env.languages [] (by simp [dictKeys])
  · exact forall_mem_foldl_dictSet _ env.languages (fun k => Or.inl rfl) []
      (by intro p hp; simp at hp)
  · intro p hp
    have hmem : p.1 ∈ dictKeys (initState env).clients :=
      List.mem_map_of_mem Prod.fst hp
    have hsome := (lookup_isSome_iff_mem_keys (initState env).clients p.1).mpr hmem
    rw [show (initState env).clients =
          env.languages.foldl (fun d' k => dictSet d' k
            ({ status := STOPPED, config := env.langConfig k, «instance» := none }
              : ClientRecord)) [] from rfl,
        lookup_foldl_dictSet_isSome] at hsome
    rw [show (initState env).register_queue =
          env.languages.foldl (fun d' k => dictSet d' k
            ([] : List (String × String))) [] from rfl,
        lookup_foldl_dictSet_isSome]
    rcases hsome with h | h
    · exact Or.inl h
    · simp [List.lookup] at h

theorem close_client_register_queue (s : PluginState) (language : String) :
    (close_client s language).1.register_queue = s.register_queue := by
  cases hc : s.clients.lookup language with
  | none => simp [close_client, hc]
  | some r =>
    by_cases hst : r.status = RUNNING
    · cases hinst : r.«instance» with
      | none => simp [close_client, hc, hst, hinst]
      | some c => simp [close_client, hc, hst, hinst]
    · simp [close_client, hc, hst]

theorem inv_register_file (s : PluginState) (language filename codeeditor : String)
    (h : RegistryInv s) : RegistryInv (register_file s language filename codeeditor).1 := by
  obtain ⟨h1, h2, h3⟩ := h
  cases hc : s.clients.lookup language with
  | none =>
    simp only [register_file, hc]
    exact ⟨h1, h2, h3⟩
  | some r =>
    cases hinst : r.«instance» with
    | some c =>
      simp only [register_file, hc, hinst]
      exact ⟨h1, h2, h3⟩
    | none =>
      cases hq : s.register_queue.lookup language with
      | none =>
        simp only [register_file, hc, hinst, hq]
        exact ⟨h1, h2, h3⟩
      | some q =>
        simp only [register_file, hc, hinst, hq]
        refine ⟨h1, h2, ?_⟩
        intro p hp
        exact (lookup_dictSet_isSome _ _ _ _).mpr (Or.inr (h3 p hp))

theorem inv_start_client (env : Env) (s : PluginState) (language : String)
    (h : RegistryInv s) : RegistryInv (start_client env s language).1 := by
  obtain ⟨h1, h2, h3⟩ := h
  cases hc : s.clients.lookup language with
  | none =>
    simp only [start_client, hc]
    exact ⟨h1, h2, h3⟩
  | some r =>
    cases hq : s.register_queue.lookup language with
    | none =>
      simp only [start_client, hc, hq]
      exact ⟨h1, h2, h3⟩
    | some queue =>
      simp only [start_client, hc, hq]
      by_cases hg : env.runningUnderPytest ∧ ¬ env.introspection
      · rw [if_pos hg]
        exact ⟨h1, h2, h3⟩
      · rw [if_neg hg]
        by_cases hst : r.status = STOPPED
        · rw [if_pos hst]
          cases queue with
          | nil =>
            refine ⟨nodup_dictKeys_dictSet _ _ _ h1,
              forall_mem_dictSet h2 (Or.inr rfl), ?_⟩
            intro p hp
            refine (lookup_dictSet_isSome _ _ _ _).mpr ?_
            exact forall_mem_dictSet
              (P := fun p => p.1 = language ∨ (s.register_queue.lookup p.1).isSome)
              (fun p hp => Or.inr (h3 p hp)) (Or.inl rfl) p hp
          | cons e rest =>
            refine ⟨nodup_dictKeys_dictSet _ _ _ h1,
              forall_mem_dictSet h2 (Or.inr rfl), ?_⟩
            exact forall_mem_dictSet h3 (h3 (language, r) (mem_of_lookup_eq_some hc))
        · rw [if_neg hst]
          exact ⟨h1, h2, h3⟩

theorem inv_close_client (s : PluginState) (language : String)
    (h : RegistryInv s) : RegistryInv (close_client s language).1 := by
  obtain ⟨h1, h2, h3⟩ := h
  cases hc : s.clients.lookup language with
  | none =>
    simp only [close_client, hc]
    exact ⟨h1, h2, h3⟩
  | some r =>
    by_cases hst : r.status = RUNNING
    · cases hinst : r.«instance» with
      | none =>
        simp only [close_client, hc, hinst, if_pos hst]
        exact ⟨h1, h2, h3⟩
      | some c =>
        simp only [close_client, hc, hinst, if_pos hst]
        exact ⟨nodup_dictKeys_dictSet _ _ _ h1,
          forall_mem_dictSet h2 (Or.inl rfl),
          forall_mem_dictSet h3 (h3 (language, r) (mem_of_lookup_eq_some hc))⟩
    · simp only [close_client, hc, if_neg hst]
      exact ⟨nodup_dictKeys_dictSet _ _ _ h1,
        forall_mem_dictSet h2 (Or.inl rfl),
        forall_mem_dictSet h3 (h3 (language, r) (mem_of_lookup_eq_some hc))⟩

theorem runAll_preserves {P : PluginState → Prop}
    (f : PluginState → String → OpResult Unit)
    (hf : ∀ s l, P s → P (f s l).1) (ls : List String) :
    ∀ (s : PluginState) (acc : List Effect), P s → P (runAll f ls s acc).1 := by
  induction ls with
  | nil =>
    intro s acc hs
    exact hs
  | cons l rest ih =>
    intro s acc hs
    have hP : P (f s l).1 := hf s l hs
    rcases hfl : f s l with ⟨s', es, r⟩
    rw [hfl] at hP
    cases r with
    | error e =>
      simp only [runAll, hfl]
      exact hP
    | ok v =>
      simp only [runAll, hfl]
      exact ih s' (acc ++ es) hP

theorem send_request_state_eq (s : PluginState) (language request : String)
    (params : Params) : (send_request s language request params).1 = s := by
  cases hc : s.clients.lookup language with
  | none => simp [send_request, hc]
  | some r =>
    by_cases hst : r.status = RUNNING
    · cases hinst : r.«instance» with
      | none => simp [send_request, hc, hst, hinst]
      | some c => simp [send_request, hc, hst, hinst]
    · simp [send_request, hc, hst]

theorem inv_update_one (env : Env) (s : PluginState) (language : String)
    (h : RegistryInv s) : RegistryInv (update_one env s language).1 := by
  obtain ⟨h1, h2, h3⟩ := h
  cases hc : s.clients.lookup language with
  | none =>
    simp only [update_one, hc]
    refine ⟨nodup_dictKeys_dictSet _ _ _ h1,
      forall_mem_dictSet h2 (Or.inl rfl), ?_⟩
    intro p hp
    refine (lookup_dictSet_isSome _ _ _ _).mpr ?_
    exact forall_mem_dictSet
      (P := fun p => p.1 = language ∨ (s.register_queue.lookup p.1).isSome)
      (fun p hp => Or.inr (h3 p hp)) (Or.inl rfl) p hp
  | some r =>
    simp only [update_one, hc]
    by_cases hsame : sameCoreConfig r.config (freshRecord env language).config
    · rw [if_pos hsame]
      by_cases hrun : r.status = RUNNING
      · rw [if_pos hrun]
        cases hinst : r.«instance» with
        | none => exact ⟨h1, h2, h3⟩
        | some c => exact ⟨h1, h2, h3⟩
      · rw [if_neg hrun]
        exact ⟨h1, h2, h3⟩
    · rw [if_neg hsame]
      by_cases hst : r.status = STOPPED
      · rw [if_pos hst]
        exact ⟨nodup_dictKeys_dictSet _ _ _ h1,
          forall_mem_dictSet h2 (Or.inl rfl),
          forall_mem_dictSet h3 (h3 (language, r) (mem_of_lookup_eq_some hc))⟩
      · rw [if_neg hst]
        by_cases hrun : r.status = RUNNING
        · rw [if_pos hrun]
          have hinv1 := inv_close_client s language ⟨h1, h2, h3⟩
          have hqr := close_client_register_queue s language
          rcases hcl : close_client s language with ⟨s1, es1, r1⟩
          rw [hcl] at hinv1 hqr
          cases r1 with
          | error e => exact hinv1
          | ok v =>
            obtain ⟨g1, g2, g3⟩ := hinv1
            have hq0 : (s.register_queue.lookup language).isSome :=
              h3 (language, r) (mem_of_lookup_eq_some hc)
            have hinv2 : RegistryInv
                { s1 with clients :=
                    dictSet s1.clients language (freshRecord env language) } := by
              refine ⟨nodup_dictKeys_dictSet _ _ _ g1,
                forall_mem_dictSet g2 (Or.inl rfl), ?_⟩
              intro p hp
              refine forall_mem_dictSet
                (P := fun p => (s1.register_queue.lookup p.1).isSome) g3 ?_ p hp
              rw [hqr]
              exact hq0
            exact inv_start_client env
              { s1 with clients :=
                  dictSet s1.clients language (freshRecord env language) }
              language hinv2
        · rw [if_neg hrun]
          exact ⟨h1, h2, h3⟩

theorem inv_shutdown (s : PluginState) (h : RegistryInv s) :
    RegistryInv (shutdown s).1 := by
  unfold shutdown
  exact runAll_preserves _ (fun s' l hs => inv_close_client s' l hs) _ s [] h

theorem inv_update_client_status (s : PluginState) (active_set : List String)
    (h : RegistryInv s) : RegistryInv (update_client_status s active_set).1 := by
  unfold update_client_status
  refine runAll_preserves _ ?_ _ s [] h
  intro s' l hs
  by_cases hm : l ∈ active_set
  · rw [if_pos hm]
    exact hs
  · rw [if_neg hm]
    exact inv_close_client s' l hs

theorem inv_update_server_list (env : Env) (s : PluginState)
    (h : RegistryInv s) : RegistryInv (update_server_list env s).1 := by
  unfold update_server_list
  exact runAll_preserves _ (fun s' l hs => inv_update_one env s' l hs) _ s [] h

theorem inv_send_request (s : PluginState) (language request : String)
    (params : Params) (h : RegistryInv s) :
    RegistryInv (send_request s language request params).1 := by
  rw [send_request_state_eq]
  exact h

theorem inv_broadcast_request (s : PluginState) (request : String)
    (params : Params) (h : RegistryInv s) :
    RegistryInv (broadcast_request s request params).1 := by
  cases hpop : params.lookup "language" with
  | none =>
    simp only [broadcast_request, hpop]
    exact runAll_preserves _
      (fun s' l hs => by rw [send_request_state_eq]; exact hs) _ s [] h
  | some v =>
    simp only [broadcast_request, hpop]
    by_cases ht : truthy v
    · rw [if_pos ht]
      cases v with
      | vstr l =>
        rw [send_request_state_eq]
        exact h
      | vnone => exact h
      | vint n => exact h
    · rw [if_neg ht]
      exact runAll_preserves _
        (fun s' l hs => by rw [send_request_state_eq]; exact hs) _ s [] h

/-! ### Claim C3 -/

/-- C3: registry invariant. After `__init__`, and preserved by
`register_file`, `start_client`, `close_client`, `shutdown`,
`update_server_list`, `update_client_status`, `send_request` and
`broadcast_request`: `clients` maps each registered language to exactly
one record (no duplicate keys; the record type `ClientRecord` has
exactly the fields status/config/instance), every status is `stopped` or
`running`, and every key of `clients` is also a key of
`register_queue`. -/
theorem registry_invariant (env : Env) (s : PluginState)
    (language filename codeeditor request : String) (params : Params)
    (active_set : List String) (h : RegistryInv s) :
    RegistryInv (initState env) ∧
    RegistryInv (register_file s language filename codeeditor).1 ∧
    RegistryInv (start_client env s language).1 ∧
    RegistryInv (close_client s language).1 ∧
    RegistryInv (shutdown s).1 ∧
    RegistryInv (update_server_list env s).1 ∧
    RegistryInv (update_client_status s active_set).1 ∧
    RegistryInv (send_request s language request params).1 ∧
    RegistryInv (broadcast_request s request params).1 :=
  ⟨inv_initState env, inv_register_file s language filename codeeditor h,
   inv_start_client env s language h, inv_close_client s language h,
   inv_shutdown s h, inv_update_server_list env s h,
   inv_update_client_status s active_set h,
   inv_send_request s language request params h,
   inv_broadcast_request s request params h⟩

/-- Witness for C3 at the running one-language state. -/
theorem registry_invariant_witness :
    RegistryInv stateRun ∧
    (RegistryInv (initState envA) ∧
     RegistryInv (register_file stateRun "python" "t.py" "ed").1 ∧
     RegistryInv (start_client envA stateRun "python").1 ∧
     RegistryInv (close_client stateRun "python").1 ∧
     RegistryInv (shutdown stateRun).1 ∧
     RegistryInv (update_server_list envA stateRun).1 ∧
     RegistryInv (update_client_status stateRun ["python"]).1 ∧
     RegistryInv (send_request stateRun "python" "initialize" []).1 ∧
     RegistryInv (broadcast_request stateRun "initialize" []).1) :=
  ⟨by decide,
   registry_invariant envA stateRun "python" "t.py" "ed" "initialize" [] ["python"]
     (by decide)⟩

/-! ### Per-key behaviour of `close_client` and a fold lemma (claim C7) -/

theorem close_client_cases (s : PluginState) (l : String) :
    (s.clients.lookup l = none ∧ close_client s l = (s, [], .ok ())) ∨
    (∃ r, s.clients.lookup l = some r ∧
      ((r.status = RUNNING ∧ r.«instance» = none ∧
          close_client s l = (s, [], .error (.attributeError "stop"))) ∨
       (∃ c, r.status = RUNNING ∧ r.«instance» = some c ∧
          close_client s l =
            ({ s with clients := dictSet s.clients l { r with status := STOPPED } },
             [.clientStop c.cid], .ok ())) ∨
       (¬ r.status = RUNNING ∧
          close_client s l =
            ({ s with clients := dictSet s.clients l { r with status := STOPPED } },
             [], .ok ())))) := by
  cases hc : s.clients.lookup l with
  | none => exact Or.inl ⟨rfl, by simp [close_client, hc]⟩
  | some r =>
    refine Or.inr ⟨r, rfl, ?_⟩
    by_cases hst : r.status = RUNNING
    · cases hinst : r.«instance» with
      | none =>
        exact Or.inl ⟨hst, rfl, by simp [close_client, hc, hst, hinst]⟩
      | some c =>
        exact Or.inr (Or.inl ⟨c, hst, rfl, by simp [close_client, hc, hst, hinst]⟩)
    · exact Or.inr (Or.inr ⟨hst, by simp [close_client, hc, hst]⟩)

theorem close_client_ok (s : PluginState) (l : String)
    (hWF : RunningHasInstance s) : (close_client s l).2.2 = .ok () := by
  rcases close_client_cases s l with ⟨hc, he⟩ | ⟨r, hc, hcase⟩
  · rw [he]
  · rcases hcase with ⟨hst, hinst, he⟩ | ⟨c, hst, hinst, he⟩ | ⟨hst, he⟩
    · have hi := runningHasInstance_lookup hWF hc hst
      rw [hinst] at hi
      simp at hi
    · rw [he]
    · rw [he]

theorem close_client_lookup_other (s : PluginState) (l l' : String)
    (hne : l' ≠ l) :
    (close_client s l).1.clients.lookup l' = s.clients.lookup l' := by
  rcases close_client_cases s l with ⟨hc, he⟩ | ⟨r, hc, hcase⟩
  · rw [he]
  · rcases hcase with ⟨hst, hinst, he⟩ | ⟨c, hst, hinst, he⟩ | ⟨hst, he⟩
    · rw [he]
    · rw [he]
      exact lookup_dictSet_ne _ _ _ _ hne
    · rw [he]
      exact lookup_dictSet_ne _ _ _ _ hne

theorem close_client_lookup_self (s : PluginState) (l : String) (r : ClientRecord)
    (hWF : RunningHasInstance s) (hc : s.clients.lookup l = some r) :
    (close_client s l).1.clients.lookup l = some { r with status := STOPPED } := by
  rcases close_client_cases s l with ⟨hc', he⟩ | ⟨r', hc', hcase⟩
  · rw [hc] at hc'
    exact Option.noConfusion hc'
  · rw [hc] at hc'
    injection hc' with hrr
    subst hrr
    rcases hcase with ⟨hst, hinst, he⟩ | ⟨c, hst, hinst, he⟩ | ⟨hst, he⟩
    · have hi := runningHasInstance_lookup hWF hc hst
      rw [hinst] at hi
      simp at hi
    · rw [he]
      exact lookup_dictSet_self ..
    · rw [he]
      exact lookup_dictSet_self ..

theorem runningHasInstance_close_client (s : PluginState) (l : String)
    (hWF : RunningHasInstance s) : RunningHasInstance (close_client s l).1 := by
  rcases close_client_cases s l with ⟨hc, he⟩ | ⟨r, hc, hcase⟩
  · rw [he]
    exact hWF
  · rcases hcase with ⟨hst, hinst, he⟩ | ⟨c, hst, hinst, he⟩ | ⟨hst, he⟩
    · rw [he]
      exact hWF
    · rw [he]
      intro p hp
      exact forall_mem_dictSet
        (P := fun p => p.2.status = RUNNING → p.2.«instance».isSome)
        hWF (fun h => absurd h stopped_ne_running) p hp
    · rw [he]
      intro p hp
      exact forall_mem_dictSet
        (P := fun p => p.2.status = RUNNING → p.2.«instance».isSome)
        hWF (fun h => absurd h stopped_ne_running) p hp

theorem runAll_at_key {P : PluginState → Prop}
    {Q : String → Option ClientRecord → Option ClientRecord → Prop}
    {E : String → Option ClientRecord → List Effect}
    (f : PluginState → String → OpResult Unit)
    (hP : ∀ t l, P t → P (f t l).1)
    (hok : ∀ t l, P t → (f t l).2.2 = .ok ())
    (hframe : ∀ t l l', P t → l' ≠ l →
      (f t l).1.clients.lookup l' = t.clients.lookup l')
    (hstep : ∀ t l, P t → Q l (t.clients.lookup l) ((f t l).1.clients.lookup l))
    (hE : ∀ t l, P t → ∀ e ∈ E l (t.clients.lookup l), e ∈ (f t l).2.1)
    (ls : List String) :
    ∀ (t : PluginState) (acc : List Effect), P t → ls.Nodup →
      (runAll f ls t acc).2.2 = .ok () ∧
      (∀ l, l ∉ ls → (runAll f ls t acc).1.clients.lookup l = t.clients.lookup l) ∧
      (∀ l, l ∈ ls → Q l (t.clients.lookup l) ((runAll f ls t acc).1.clients.lookup l)) ∧
      (∀ e, e ∈ acc → e ∈ (runAll f ls t acc).2.1) ∧
      (∀ l, l ∈ ls → ∀ e, e ∈ E l (t.clients.lookup l) → e ∈ (runAll f ls t acc).2.1) := by
  induction ls with
  | nil =>
    intro t acc hPt _
    exact ⟨rfl, fun l _ => rfl, fun l hl => absurd hl (List.not_mem_nil l),
      fun e he => he, fun l hl => absurd hl (List.not_mem_nil l)⟩
  | cons l0 rest ih =>
    intro t acc hPt hnd
    obtain ⟨hl0, hndr⟩ := List.nodup_cons.mp hnd
    have hok0 := hok t l0 hPt
    have hP1 := hP t l0 hPt
    have hstep0 := hstep t l0 hPt
    have hE0 := hE t l0 hPt
    rcases hf0 : f t l0 with ⟨t1, es, r0⟩
    rw [hf0] at hok0 hP1 hstep0 hE0
    cases r0 with
    | error e => exact Except.noConfusion hok0
    | ok u =>
      simp only [runAll, hf0]
      obtain ⟨ih1, ih2, ih3, ih4, ih5⟩ := ih t1 (acc ++ es) hP1 hndr
      refine ⟨ih1, ?_, ?_, ?_, ?_⟩
      · intro l hl
        rw [List.mem_cons, not_or] at hl
        obtain ⟨hne, hnr⟩ := hl
        rw [ih2 l hnr]
        have hfr := hframe t l0 l hPt hne
        rw [hf0] at hfr
        exact hfr
      · intro l hl
        rcases List.mem_cons.mp hl with h | h
        · subst h
          rw [ih2 l hl0]
          exact hstep0
        · have hne : l ≠ l0 := fun heq => hl0 (heq ▸ h)
          have hfr := hframe t l0 l hPt hne
          rw [hf0] at hfr
          rw [← hfr]
          exact ih3 l h
      · intro e he
        exact ih4 e (List.mem_append_left _ he)
      · intro l hl e he
        rcases List.mem_cons.mp hl with h | h
        · subst h
          exact ih4 e (List.mem_append_right _ (hE0 e he))
        · have hne : l ≠ l0 := fun heq => hl0 (heq ▸ h)
          have hfr := hframe t l0 l hPt hne
          rw [hf0] at hfr
          rw [← hfr] at he
          exact ih5 l h e he

/-! ### Claim C7 -/

/-- C7: `shutdown` invokes `close_client` on every language in `clients`
(in particular emitting a `stop` call for every running instance) and
afterwards every registry entry's status is `stopped`; after
`update_client_status(active_set)`, every language in `clients` outside
`active_set` has status `stopped`. -/
theorem shutdown_stops_everything (s : PluginState) (active_set : List String)
    (hWF : RunningHasInstance s) (hnd : (dictKeys s.clients).Nodup) :
    ShutdownClaim s active_set := by
  unfold ShutdownClaim shutdown update_client_status
  constructor
  · have hsd := runAll_at_key
      (Q := fun _ o o' => ∀ r, o = some r → o' = some { r with status := STOPPED })
      (E := stopEffect)
      (fun s' language => close_client s' language)
      (fun t l h => runningHasInstance_close_client t l h)
      (fun t l h => close_client_ok t l h)
      (fun t l l' h hne => close_client_lookup_other t l l' hne)
      (fun t l h r hr => close_client_lookup_self t l r h hr)
      (by
        intro t l h e he
        show e ∈ (close_client t l).2.1
        rcases hc : t.clients.lookup l with _ | r
        · rw [hc] at he
          simp [stopEffect] at he
        · rw [hc] at he
          by_cases hst : r.status = RUNNING
          · rcases hinst : r.«instance» with _ | c
            · have hi := runningHasInstance_lookup h hc hst
              rw [hinst] at hi
              simp at hi
            · simp only [stopEffect, if_pos hst, hinst, List.mem_singleton] at he
              subst he
              rcases close_client_cases t l with ⟨hc', _⟩ | ⟨r', hc', hcase⟩
              · rw [hc] at hc'
                exact Option.noConfusion hc'
              · rw [hc] at hc'
                injection hc' with hrr
                subst hrr
                rcases hcase with ⟨_, hinst', _⟩ | ⟨c', _, hinst', he'⟩ | ⟨hst', _⟩
                · rw [hinst] at hinst'
                  exact Option.noConfusion hinst'
                · rw [hinst] at hinst'
                  injection hinst' with hcc
                  subst hcc
                  rw [he']
                  simp
                · exact absurd hst hst'
          · simp [stopEffect, hst] at he)
      (dictKeys s.clients) s [] hWF hnd
    obtain ⟨h1, h2, h3, _, h5⟩ := hsd
    refine ⟨h1, ?_, ?_⟩
    · intro l r c hc hst hinst
      have hmem : l ∈ dictKeys s.clients :=
        (lookup_isSome_iff_mem_keys _ _).mp (by rw [hc]; rfl)
      refine h5 l hmem (Effect.clientStop c.cid) ?_
      simp [stopEffect, hc, hst, hinst]
    · intro l r hr
      by_cases hmem : l ∈ dictKeys s.clients
      · obtain ⟨r0, hr0⟩ := Option.isSome_iff_exists.mp
          ((lookup_isSome_iff_mem_keys _ _).mpr hmem)
        have hq := h3 l hmem r0 hr0
        rw [hq] at hr
        injection hr with h
        rw [← h]
      · have hnone : s.clients.lookup l = none := by
          cases ho : s.clients.lookup l with
          | none => rfl
          | some r' =>
            exact absurd ((lookup_isSome_iff_mem_keys _ _).mp (by rw [ho]; rfl)) hmem
        rw [h2 l hmem, hnone] at hr
        exact Option.noConfusion hr
  · have hsd := runAll_at_key
      (Q := fun l o o' => l ∉ active_set →
        ∀ r, o = some r → o' = some { r with status := STOPPED })
      (E := fun _ _ => ([] : List Effect))
      (fun s' language =>
        if language ∈ active_set then (s', [], .ok ()) else close_client s' language)
      (by
        intro t l h
        dsimp only
        by_cases hm : l ∈ active_set
        · rw [if_pos hm]
          exact h
        · rw [if_neg hm]
          exact runningHasInstance_close_client t l h)
      (by
        intro t l h
        dsimp only
        by_cases hm : l ∈ active_set
        · rw [if_pos hm]
        · rw [if_neg hm]
          exact close_client_ok t l h)
      (by
        intro t l l' h hne
        dsimp only
        by_cases hm : l ∈ active_set
        · rw [if_pos hm]
        · rw [if_neg hm]
          exact close_client_lookup_other t l l' hne)
      (by
        intro t l h
        dsimp only
        by_cases hm : l ∈ active_set
        · rw [if_pos hm]
          intro hnm
          exact absurd hm hnm
        · rw [if_neg hm]
          intro _ r hr
          exact close_client_lookup_self t l r h hr)
      (by
        intro t l h e he
        simp at he)
      (dictKeys s.clients) s [] hWF hnd
    obtain ⟨h1, h2, h3, _, _⟩ := hsd
    refine ⟨h1, ?_⟩
    intro l r hact hr
    by_cases hmem : l ∈ dictKeys s.clients
    · obtain ⟨r0, hr0⟩ := Option.isSome_iff_exists.mp
        ((lookup_isSome_iff_mem_keys _ _).mpr hmem)
      have hq := h3 l hmem hact r0 hr0
      rw [hq] at hr
      injection hr with h
      rw [← h]
    · have hnone : s.clients.lookup l = none := by
        cases ho : s.clients.lookup l with
        | none => rfl
        | some r' =>
          exact absurd ((lookup_isSome_iff_mem_keys _ _).mp (by rw [ho]; rfl)) hmem
      rw [h2 l hmem, hnone] at hr
      exact Option.noConfusion hr

/-- Witness for C7 at the running one-language state with an empty
active set. -/
theorem shutdown_stops_everything_witness :
    RunningHasInstance stateRun ∧ (dictKeys stateRun.clients).Nodup ∧
    ShutdownClaim stateRun [] :=
  ⟨by decide, by decide,
   shutdown_stops_everything stateRun [] (by decide) (by decide)⟩

/-! ### Claim C6 -/

theorem send_request_ok (s : PluginState) (l request : String) (params : Params)
    (hWF : RunningHasInstance s) : (send_request s l request params).2.2 = .ok () := by
  cases hc : s.clients.lookup l with
  | none => simp [send_request, hc]
  | some r =>
    by_cases hst : r.status = RUNNING
    · rcases hinst : r.«instance» with _ | c
      · have hi := runningHasInstance_lookup hWF hc hst
        rw [hinst] at hi
        simp at hi
      · simp [send_request, hc, hst, hinst]
    · simp [send_request, hc, hst]

theorem send_request_effects_running (s : PluginState) (l request : String)
    (params : Params) (r : ClientRecord) (c : LSPClient)
    (hc : s.clients.lookup l = some r) (hst : r.status = RUNNING)
    (hinst : r.«instance» = some c) :
    (send_request s l request params).2.1 =
      [Effect.performRequest c.cid request params] := by
  simp [send_request, hc, hst, hinst]

/-- C6: `broadcast_request(request, params)` removes the `language` key
from `params`; a present truthy (string) value routes the request only
to that language's client, and otherwise the request goes to every
language in `clients`, in each case subject to `send_request`'s
running-status guard. -/
theorem broadcast_request_routes (s : PluginState) (request : String)
    (params : Params) (hWF : RunningHasInstance s)
    (hnd : (dictKeys s.clients).Nodup) :
    BroadcastClaim s request params := by
  unfold BroadcastClaim
  constructor
  · intro l hl hne
    simp only [broadcast_request, hl]
    rw [if_pos (by simp [truthy, hne])]
  · intro hcase
    have key : broadcast_request s request params =
        runAll
          (fun s' language => send_request s' language request
            (dictErase params "language"))
          (dictKeys s.clients) s [] := by
      rcases hcase with hnone | ⟨v, hv, ht⟩
      · simp only [broadcast_request, hnone]
      · simp only [broadcast_request, hv]
        rw [if_neg (by simp [ht])]
    rw [key]
    have hall := runAll_at_key
      (P := fun t => t = s)
      (Q := fun _ _ _ => True)
      (E := sendEffect request (dictErase params "language"))
      (fun s' language => send_request s' language request
        (dictErase params "language"))
      (fun t l ht => (send_request_state_eq t l request _).trans ht)
      (by
        intro t l ht
        subst ht
        exact send_request_ok t l request _ hWF)
      (by
        intro t l l' ht hne
        rw [send_request_state_eq])
      (fun t l ht => trivial)
      (by
        intro t l ht e he
        subst ht
        rcases hc : t.clients.lookup l with _ | r
        · rw [hc] at he
          simp [sendEffect] at he
        · rw [hc] at he
          by_cases hst : r.status = RUNNING
          · rcases hinst : r.«instance» with _ | c
            · have hi := runningHasInstance_lookup hWF hc hst
              rw [hinst] at hi
              simp at hi
            · simp only [sendEffect, if_pos hst, hinst, List.mem_singleton] at he
              subst he
              rw [send_request_effects_running t l request _ r c hc hst hinst]
              simp
          · simp [sendEffect, hst] at he)
      (dictKeys s.clients) s [] rfl hnd
    obtain ⟨h1, _, _, _, h5⟩ := hall
    refine ⟨?_, h1, ?_⟩
    · exact runAll_preserves (P := fun t => t = s) _
        (fun t l ht => (send_request_state_eq t l request _).trans ht)
        (dictKeys s.clients) s [] rfl
    · intro l r c hc hst hinst
      have hmem : l ∈ dictKeys s.clients :=
        (lookup_isSome_iff_mem_keys _ _).mp (by rw [hc]; rfl)
      refine h5 l hmem _ ?_
      simp [sendEffect, hc, hst, hinst]

/-- Witness for C6: broadcasting with no `language` key at the running
one-language state. -/
theorem broadcast_request_routes_witness :
    RunningHasInstance stateRun ∧ (dictKeys stateRun.clients).Nodup ∧
    BroadcastClaim stateRun "workspace/didChangeConfiguration" [] :=
  ⟨by decide, by decide,
   broadcast_request_routes stateRun "workspace/didChangeConfiguration" []
     (by decide) (by decide)⟩

/-! ### Per-language behaviour of `update_server_list` (claim C4) -/

theorem readyState_lookup {s : PluginState} (h : ReadyState s) {l : String}
    {r : ClientRecord} (hc : s.clients.lookup l = some r)
    (hr : r.status = RUNNING) :
    r.«instance».isSome ∧ s.register_queue.lookup l = some [] :=
  h (l, r) (mem_of_lookup_eq_some hc) hr

theorem start_client_success (env : Env) (s : PluginState) (language : String)
    (r : ClientRecord)
    (hc : s.clients.lookup language = some r) (hst : r.status = STOPPED)
    (hq : s.register_queue.lookup language = some [])
    (hg : ¬(env.runningUnderPytest ∧ ¬ env.introspection)) :
    start_client env s language =
      ({ s with
          clients := dictSet s.clients language
            (startedRecord env (appliedConfig env r.config) s.nextId language)
        , register_queue := dictSet s.register_queue language []
        , nextId := s.nextId + 1 },
       [.registerClientInstance s.nextId, .clientStart s.nextId],
       .ok false) := by
  have hnr : ¬ r.status = RUNNING := by
    rw [hst]
    exact stopped_ne_running
  simp only [start_client, hc, hq]
  rw [if_neg hg, if_pos hst]
  simp [startedRecord, newClient, appliedConfig, hnr]

theorem update_one_cases (env : Env) (t : PluginState) (l : String)
    (hP : ReadyState t) (hg : ¬(env.runningUnderPytest ∧ ¬ env.introspection)) :
    (t.clients.lookup l = none ∧
      update_one env t l =
        ({ t with clients := dictSet t.clients l (freshRecord env l)
                , register_queue := dictSet t.register_queue l [] }, [], .ok ())) ∨
    (∃ r, t.clients.lookup l = some r ∧
      ((∃ c, r.status = RUNNING ∧ r.«instance» = some c ∧
          sameCoreConfig r.config (freshRecord env l).config ∧
          update_one env t l =
            (t, [.sendPluginConfigurations c.cid
                  (env.langConfig l).configurations], .ok ())) ∨
       (¬ r.status = RUNNING ∧ sameCoreConfig r.config (freshRecord env l).config ∧
          update_one env t l = (t, [], .ok ())) ∨
       (r.status = STOPPED ∧ ¬ sameCoreConfig r.config (freshRecord env l).config ∧
          update_one env t l =
            ({ t with clients := dictSet t.clients l (freshRecord env l) },
             [], .ok ())) ∨
       (∃ c, r.status = RUNNING ∧ r.«instance» = some c ∧
          ¬ sameCoreConfig r.config (freshRecord env l).config ∧
          update_one env t l =
            ({ t with
                clients := dictSet (dictSet (dictSet t.clients l
                  ({ r with status := STOPPED })) l (freshRecord env l)) l
                  (startedRecord env (appliedConfig env (env.langConfig l))
                    t.nextId l)
                , register_queue := dictSet t.register_queue l []
                , nextId := t.nextId + 1 },
             [.editorStopLspServices l, .projectsStopLspServices, .clientStop c.cid,
              .registerClientInstance t.nextId, .clientStart t.nextId],
             .ok ())) ∨
       (¬ r.status = RUNNING ∧ ¬ r.status = STOPPED ∧
          ¬ sameCoreConfig r.config (freshRecord env l).config ∧
          update_one env t l = (t, [], .ok ())))) := by
  cases hc : t.clients.lookup l with
  | none => exact Or.inl ⟨rfl, by simp [update_one, hc]⟩
  | some r =>
    refine Or.inr ⟨r, rfl, ?_⟩
    by_cases hsame : sameCoreConfig r.config (freshRecord env l).config
    · by_cases hr : r.status = RUNNING
      · obtain ⟨hi, hq⟩ := readyState_lookup hP hc hr
        obtain ⟨c, hcinst⟩ := Option.isSome_iff_exists.mp hi
        refine Or.inl ⟨c, hr, hcinst, hsame, ?_⟩
        simp only [update_one, hc]
        rw [if_pos hsame, if_pos hr]
        simp [hcinst, freshRecord]
      · refine Or.inr (Or.inl ⟨hr, hsame, ?_⟩)
        simp only [update_one, hc]
        rw [if_pos hsame, if_neg hr]
    · by_cases hst : r.status = STOPPED
      · refine Or.inr (Or.inr (Or.inl ⟨hst, hsame, ?_⟩))
        simp only [update_one, hc]
        rw [if_neg hsame, if_pos hst]
      · by_cases hr : r.status = RUNNING
        · obtain ⟨hi, hq⟩ := readyState_lookup hP hc hr
          obtain ⟨c, hcinst⟩ := Option.isSome_iff_exists.mp hi
          refine Or.inr (Or.inr (Or.inr (Or.inl ⟨c, hr, hcinst, hsame, ?_⟩)))
          have hclose : close_client t l =
              ({ t with clients := dictSet t.clients l ({ r with status := STOPPED }) },
               [.clientStop c.cid], .ok ()) := by
            simp [close_client, hc, hr, hcinst]
          have hq2 : ({ t with clients := dictSet (dictSet t.clients l
              ({ r with status := STOPPED })) l (freshRecord env l) }
              : PluginState).register_queue.lookup l = some [] := hq
          have hstart := start_client_success env
            { t with clients := dictSet (dictSet t.clients l
                ({ r with status := STOPPED })) l (freshRecord env l) }
            l (freshRecord env l) (lookup_dictSet_self ..) rfl hq2 hg
          simp only [update_one, hc]
          rw [if_neg hsame, if_neg hst, if_pos hr, hclose]
          simp only [hstart]
          rfl
        · refine Or.inr (Or.inr (Or.inr (Or.inr ⟨hr, hst, hsame, ?_⟩)))
          simp only [update_one, hc]
          rw [if_neg hsame, if_neg hst, if_neg hr]

theorem ready_update_one (env : Env) (t : PluginState) (l : String)
    (hP : ReadyState t) (hg : ¬(env.runningUnderPytest ∧ ¬ env.introspection)) :
    ReadyState (update_one env t l).1 ∧ (update_one env t l).2.2 = .ok () := by
  have base : ∀ p ∈ t.clients, p.2.status = RUNNING →
      p.2.«instance».isSome ∧ (dictSet t.register_queue l []).lookup p.1 = some [] := by
    intro p hp hrp
    obtain ⟨hi, hq⟩ := hP p hp hrp
    refine ⟨hi, ?_⟩
    by_cases hpl : p.1 = l
    · rw [hpl, lookup_dictSet_self]
    · rw [lookup_dictSet_ne _ _ _ _ hpl]
      exact hq
  rcases update_one_cases env t l hP hg with ⟨hc, he⟩ | ⟨r, hc, hcase⟩
  · rw [he]
    refine ⟨?_, rfl⟩
    intro p hp hrp
    exact forall_mem_dictSet (P := fun p => p.2.status = RUNNING →
        p.2.«instance».isSome ∧ (dictSet t.register_queue l []).lookup p.1 = some [])
      base (fun h => absurd h stopped_ne_running) p hp hrp
  · rcases hcase with ⟨c, hr, hcinst, hsame, he⟩ | ⟨hr, hsame, he⟩ |
      ⟨hst, hsame, he⟩ | ⟨c, hr, hcinst, hsame, he⟩ | ⟨hr, hst, hsame, he⟩
    · rw [he]
      exact ⟨hP, rfl⟩
    · rw [he]
      exact ⟨hP, rfl⟩
    · rw [he]
      refine ⟨?_, rfl⟩
      intro p hp hrp
      exact forall_mem_dictSet (P := fun p => p.2.status = RUNNING →
          p.2.«instance».isSome ∧ t.register_queue.lookup p.1 = some [])
        hP (fun h => absurd h stopped_ne_running) p hp hrp
    · rw [he]
      refine ⟨?_, rfl⟩
      exact forall_mem_dictSet
        (forall_mem_dictSet
          (forall_mem_dictSet base (fun h => absurd h stopped_ne_running))
          (fun h => absurd h stopped_ne_running))
        (fun _ => ⟨rfl, lookup_dictSet_self ..⟩)
    · rw [he]
      exact ⟨hP, rfl⟩

theorem update_one_frame (env : Env) (t : PluginState) (l l' : String)
    (hP : ReadyState t) (hg : ¬(env.runningUnderPytest ∧ ¬ env.introspection))
    (hne : l' ≠ l) :
    (update_one env t l).1.clients.lookup l' = t.clients.lookup l' ∧
    (update_one env t l).1.register_queue.lookup l' = t.register_queue.lookup l' := by
  rcases update_one_cases env t l hP hg with ⟨hc, he⟩ | ⟨r, hc, hcase⟩
  · rw [he]
    exact ⟨lookup_dictSet_ne _ _ _ _ hne, lookup_dictSet_ne _ _ _ _ hne⟩
  · rcases hcase with ⟨c, hr, hcinst, hsame, he⟩ | ⟨hr, hsame, he⟩ |
      ⟨hst, hsame, he⟩ | ⟨c, hr, hcinst, hsame, he⟩ | ⟨hr, hst, hsame, he⟩
    · rw [he]
      exact ⟨rfl, rfl⟩
    · rw [he]
      exact ⟨rfl, rfl⟩
    · rw [he]
      exact ⟨lookup_dictSet_ne _ _ _ _ hne, rfl⟩
    · rw [he]
      refine ⟨?_, lookup_dictSet_ne _ _ _ _ hne⟩
      rw [lookup_dictSet_ne _ _ _ _ hne, lookup_dictSet_ne _ _ _ _ hne,
        lookup_dictSet_ne _ _ _ _ hne]
    · rw [he]
      exact ⟨rfl, rfl⟩

theorem runAll_at_key_state {P : PluginState → Prop}
    {R : String → Option ClientRecord → Option (List (String × String)) →
      Option ClientRecord → Option (List (String × String)) → List Effect → Prop}
    (f : PluginState → String → OpResult Unit)
    (hP : ∀ t l, P t → P (f t l).1)
    (hok : ∀ t l, P t → (f t l).2.2 = .ok ())
    (hframeC : ∀ t l l', P t → l' ≠ l →
      (f t l).1.clients.lookup l' = t.clients.lookup l')
    (hframeQ : ∀ t l l', P t → l' ≠ l →
      (f t l).1.register_queue.lookup l' = t.register_queue.lookup l')
    (hstep : ∀ t l, P t →
      R l (t.clients.lookup l) (t.register_queue.lookup l)
        ((f t l).1.clients.lookup l) ((f t l).1.register_queue.lookup l)
        (f t l).2.1)
    (hmono : ∀ l oc oq oc' oq' es es', (∀ e ∈ es, e ∈ es') →
      R l oc oq oc' oq' es → R l oc oq oc' oq' es')
    (ls : List String) :
    ∀ (t : PluginState) (acc : List Effect), P t → ls.Nodup →
      (runAll f ls t acc).2.2 = .ok () ∧
      (∀ e, e ∈ acc → e ∈ (runAll f ls t acc).2.1) ∧
      (∀ l, l ∉ ls →
        (runAll f ls t acc).1.clients.lookup l = t.clients.lookup l ∧
        (runAll f ls t acc).1.register_queue.lookup l = t.register_queue.lookup l) ∧
      (∀ l, l ∈ ls →
        R l (t.clients.lookup l) (t.register_queue.lookup l)
          ((runAll f ls t acc).1.clients.lookup l)
          ((runAll f ls t acc).1.register_queue.lookup l)
          (runAll f ls t acc).2.1) := by
  induction ls with
  | nil =>
    intro t acc hPt _
    exact ⟨rfl, fun e he => he, fun l _ => ⟨rfl, rfl⟩,
      fun l hl => absurd hl (List.not_mem_nil l)⟩
  | cons l0 rest ih =>
    intro t acc hPt hnd
    obtain ⟨hl0, hndr⟩ := List.nodup_cons.mp hnd
    have hok0 := hok t l0 hPt
    have hP1 := hP t l0 hPt
    have hstep0 := hstep t l0 hPt
    rcases hf0 : f t l0 with ⟨t1, es, r0⟩
    rw [hf0] at hok0 hP1 hstep0
    cases r0 with
    | error e => exact Except.noConfusion hok0
    | ok u =>
      simp only [runAll, hf0]
      obtain ⟨ih1, ih2, ih3, ih4⟩ := ih t1 (acc ++ es) hP1 hndr
      refine ⟨ih1, ?_, ?_, ?_⟩
      · intro e he
        exact ih2 e (List.mem_append_left _ he)
      · intro l hl
        rw [List.mem_cons, not_or] at hl
        obtain ⟨hne, hnr⟩ := hl
        obtain ⟨ic, iq⟩ := ih3 l hnr
        have hfc := hframeC t l0 l hPt hne
        have hfq := hframeQ t l0 l hPt hne
        rw [hf0] at hfc hfq
        exact ⟨ic.trans hfc, iq.trans hfq⟩
      · intro l hl
        rcases List.mem_cons.mp hl with h | h
        · subst h
          obtain ⟨ic, iq⟩ := ih3 l hl0
          rw [ic, iq]
          refine hmono _ _ _ _ _ es _ ?_ hstep0
          intro e he
          exact ih2 e (List.mem_append_right _ he)
        · have hne : l ≠ l0 := fun heq => hl0 (heq ▸ h)
          have hfc := hframeC t l0 l hPt hne
          have hfq := hframeQ t l0 l hPt hne
          rw [hf0] at hfc hfq
          rw [← hfc, ← hfq]
          exact ih4 l h

/-! ### Claim C4 -/

/-- C4 counterexample: under pytest without introspection, a running
`python` client whose configuration changed in the `port` key is stopped
(close, with the stop call in the trace) but no new client is started:
`start_client` returns early, leaving the entry stopped with no
instance, so the claim's "stops that client and starts a new one" fails
as stated. -/
theorem update_server_list_gate_counterexample :
    ¬ sameCoreConfig recRun.config (envGate.langConfig "python") ∧
    stateRun.clients.lookup "python" = some recRun ∧
    recRun.status = RUNNING ∧
    update_server_list envGate stateRun =
      ({ clients := [("python", freshRecord envGate "python")]
       , register_queue := [("python", [])], nextId := 1 },
       [.editorStopLspServices "python", .projectsStopLspServices, .clientStop 0],
       .ok ()) ∧
    (freshRecord envGate "python").status = STOPPED ∧
    (freshRecord envGate "python").«instance» = none := by
  refine ⟨by decide, rfl, rfl, ?_, rfl, rfl⟩
  rfl

/-- C4 (amended): when the pytest gate does not apply and every running
client has a live instance and an empty registration queue (true of all
reachable states), `update_server_list` raises nothing and, for every
configured language: an unregistered language gets a fresh stopped entry
and an empty queue; a running language is stopped and restarted with the
freshly generated configuration exactly when that configuration differs
in one of cmd/args/host/port/external/stdio, and otherwise keeps its
client, which receives `send_plugin_configurations` with the new
`configurations` payload. -/
theorem update_server_list_reconfigures (env : Env) (s : PluginState)
    (hg : ¬(env.runningUnderPytest ∧ ¬ env.introspection))
    (hready : ReadyState s) (hnd : env.languages.Nodup) :
    UpdateServerListClaim env s := by
  unfold UpdateServerListClaim update_server_list
  have hall := runAll_at_key_state
    (P := ReadyState)
    (R := fun l oc oq oc' oq' es =>
      (oc = none → oc' = some (freshRecord env l) ∧ oq' = some []) ∧
      (∀ r, oc = some r → r.status = RUNNING →
        ((¬ sameCoreConfig r.config (freshRecord env l).config →
          ∃ c n, r.«instance» = some c ∧
            Effect.clientStop c.cid ∈ es ∧ Effect.clientStart n ∈ es ∧
            oc' = some (startedRecord env
              (appliedConfig env (env.langConfig l)) n l)) ∧
         (sameCoreConfig r.config (freshRecord env l).config →
          oc' = some r ∧ ∃ c, r.«instance» = some c ∧
            Effect.sendPluginConfigurations c.cid
              (env.langConfig l).configurations ∈ es))))
    (update_one env)
    (fun t l h => (ready_update_one env t l h hg).1)
    (fun t l h => (ready_update_one env t l h hg).2)
    (fun t l l' h hne => (update_one_frame env t l l' h hg hne).1)
    (fun t l l' h hne => (update_one_frame env t l l' h hg hne).2)
    (by
      intro t l h
      rcases update_one_cases env t l h hg with ⟨hc, he⟩ | ⟨r, hc, hcase⟩
      · rw [hc, he]
        refine ⟨fun _ => ⟨lookup_dictSet_self .., lookup_dictSet_self ..⟩, ?_⟩
        intro r hr
        exact Option.noConfusion hr
      · rw [hc]
        rcases hcase with ⟨c, hr, hcinst, hsame, he⟩ | ⟨hr, hsame, he⟩ |
          ⟨hst, hsame, he⟩ | ⟨c, hr, hcinst, hsame, he⟩ | ⟨hr, hst, hsame, he⟩
        · rw [he]
          refine ⟨fun hnone => Option.noConfusion hnone, ?_⟩
          intro r' hr' hrun
          injection hr' with hrr
          subst hrr
          refine ⟨fun hdiff => absurd hsame hdiff, fun _ => ⟨hc, c, hcinst, ?_⟩⟩
          simp
        · rw [he]
          refine ⟨fun hnone => Option.noConfusion hnone, ?_⟩
          intro r' hr' hrun
          injection hr' with hrr
          subst hrr
          exact absurd hrun hr
        · rw [he]
          refine ⟨fun hnone => Option.noConfusion hnone, ?_⟩
          intro r' hr' hrun
          injection hr' with hrr
          subst hrr
          rw [hst] at hrun
          exact absurd hrun stopped_ne_running
        · rw [he]
          refine ⟨fun hnone => Option.noConfusion hnone, ?_⟩
          intro r' hr' hrun
          injection hr' with hrr
          subst hrr
          refine ⟨fun _ => ⟨c, t.nextId, hcinst, ?_, ?_, lookup_dictSet_self ..⟩,
            fun hsame' => absurd hsame' hsame⟩
          · simp
          · simp
        · rw [he]
          refine ⟨fun hnone => Option.noConfusion hnone, ?_⟩
          intro r' hr' hrun
          injection hr' with hrr
          subst hrr
          exact absurd hrun hr)
    (by
      intro l oc oq oc' oq' es es' hsub hR
      obtain ⟨hn, hs⟩ := hR
      refine ⟨hn, ?_⟩
      intro r hr hrun
      obtain ⟨hd, hsm⟩ := hs r hr hrun
      refine ⟨?_, ?_⟩
      · intro hdiff
        obtain ⟨c, n, h1, h2, h3, h4⟩ := hd hdiff
        exact ⟨c, n, h1, hsub _ h2, hsub _ h3, h4⟩
      · intro hsame
        obtain ⟨h1, c, h2, h3⟩ := hsm hsame
        exact ⟨h1, c, h2, hsub _ h3⟩)
    env.languages s [] hready hnd
  obtain ⟨h1, _, _, h4⟩ := hall
  exact ⟨h1, fun language hmem => h4 language hmem⟩

/-- Witness for the amended C4: one running language whose configuration
is unchanged. -/
theorem update_server_list_reconfigures_witness :
    ¬(envA.runningUnderPytest ∧ ¬ envA.introspection) ∧
    ReadyState stateRun ∧ envA.languages.Nodup ∧
    UpdateServerListClaim envA stateRun :=
  ⟨by decide, by decide, by decide,
   update_server_list_reconfigures envA stateRun (by decide) (by decide) (by decide)⟩
